import Mathlib

/-!
Verification development for the aggregation engine of the expense-tracker
application (personal finance PWA).  The client-side aggregation code is
embedded shallowly: JavaScript numbers are modelled as exact rationals (ℚ),
JS `Map` insertion-order grouping as an association list, and the store's
date-range queries as filters over explicit calendar datetimes at millisecond
resolution (the resolution of JS `Date`/`toISOString`), with the UTC timezone.
-/

namespace ExpenseTracker

/-- A transaction as consumed by the aggregation code: an amount and a
category label.  Rows fetched from the store carry more fields, but the
aggregation in Analytics.tsx reads only `amount` and `category`. -/
structure Tx where
  amount : ℚ
  category : String
deriving DecidableEq

/-- Embedding of the summing reduce in Analytics.tsx line 58 and Home.tsx
line 84: `expenses.reduce((sum, exp) => sum + Number(exp.amount), 0)`. -/
def sumAmounts (ts : List Tx) : ℚ :=
  ts.foldl (fun s t => s + t.amount) 0

/-- Output of the `summarize` operation: total, count and average. -/
structure Summary where
  total : ℚ
  count : ℕ
  average : ℚ
deriving DecidableEq

/-- Embedding of Analytics.tsx lines 58-61: `total` is the reduce above,
the count is the list length, and the average is
`expenses.length > 0 ? total / expenses.length : 0`. -/
def summarize (ts : List Tx) : Summary :=
  { total := sumAmounts ts
    count := ts.length
    average := if ts.length > 0 then sumAmounts ts / (ts.length : ℚ) else 0 }

/-- JS `Map.prototype.set`: if the key is present its value is replaced in
place (keeping its insertion position), otherwise the pair is appended. -/
def mapSet : List (String × ℚ) → String → ℚ → List (String × ℚ)
  | [], k, v => [(k, v)]
  | (k1, v1) :: rest, k, v =>
      if k1 = k then (k, v) :: rest else (k1, v1) :: mapSet rest k v

/-- JS `categoryMap.get(c) || 0`: the stored value, or 0 when absent. -/
def mapGetD (m : List (String × ℚ)) (k : String) : ℚ :=
  match m.find? (fun p => p.1 == k) with
  | some p => p.2
  | none => 0

/-- Embedding of the grouping loop in Analytics.tsx lines 63-67:
each transaction adds its amount to its category's entry of the map. -/
def buildCategoryMap (ts : List Tx) : List (String × ℚ) :=
  ts.foldl (fun m t => mapSet m t.category (mapGetD m t.category + t.amount)) []

/-- One entry of the category breakdown chart data (CategoryData in the
source).  The `percentage` field holds the numeric value that the source
formats with `toFixed(1)` for display. -/
structure CategoryShare where
  name : String
  value : ℚ
  percentage : ℚ
deriving DecidableEq

/-- Embedding of Analytics.tsx lines 69-73: each map entry becomes a chart
datum with `percentage = total > 0 ? (value / total) * 100 : 0`. -/
def categoryBreakdown (ts : List Tx) : List CategoryShare :=
  (buildCategoryMap ts).map (fun p =>
    { name := p.1
      value := p.2
      percentage := if sumAmounts ts > 0 then p.2 / sumAmounts ts * 100 else 0 })

/-- Sum of the values of an association list. -/
def sumValues (m : List (String × ℚ)) : ℚ := (m.map Prod.snd).sum

/-- Sum of the per-category amounts of a breakdown. -/
def shareValueSum (cs : List CategoryShare) : ℚ :=
  (cs.map CategoryShare.value).sum

/-- Sum of the (exact) per-category percentages of a breakdown. -/
def sharePercentageSum (cs : List CategoryShare) : ℚ :=
  (cs.map CategoryShare.percentage).sum

/-- Model of JS `toFixed(1)` as rounding to the nearest tenth. -/
def toFixed1 (q : ℚ) : ℚ := ((round (q * 10) : ℤ) : ℚ) / 10

/-- Sum of the displayed (rounded to one decimal) percentages. -/
def sharePercentageFixedSum (cs : List CategoryShare) : ℚ :=
  (cs.map (fun s => toFixed1 s.percentage)).sum

/-- Generalised accumulator form of `sumAmounts`. -/
theorem foldl_add_amount (ts : List Tx) (a : ℚ) :
    ts.foldl (fun s t => s + t.amount) a = a + (ts.map Tx.amount).sum := by
  induction ts generalizing a with
  | nil => simp
  | cons t rest ih =>
      simp only [List.foldl_cons, List.map_cons, List.sum_cons, ih]
      ring

/-- The source's reduce computes the sum of the amounts. -/
theorem sumAmounts_eq (ts : List Tx) : sumAmounts ts = (ts.map Tx.amount).sum := by
  simpa [sumAmounts] using foldl_add_amount ts 0

/-- Updating one key of the map adds exactly the added amount to the sum of
the values. -/
theorem sumValues_mapSet (m : List (String × ℚ)) (k : String) (a : ℚ) :
    sumValues (mapSet m k (mapGetD m k + a)) = sumValues m + a := by
  induction m with
  | nil => simp [mapSet, mapGetD, sumValues]
  | cons p rest ih =>
      obtain ⟨k1, v1⟩ := p
      by_cases hk : k1 = k
      · subst hk
        simp [mapSet, mapGetD, sumValues]
        ring
      · have hb : (k1 == k) = false := beq_eq_false_iff_ne.mpr hk
        simp only [mapGetD, List.find?, hb, mapSet, if_neg hk] at *
        simp only [sumValues, List.map_cons, List.sum_cons] at *
        rw [ih]
        ring

/-- The grouping loop distributes the whole list total over the groups:
no amount is double-counted or omitted. -/
theorem sumValues_buildCategoryMap (ts : List Tx) :
    sumValues (buildCategoryMap ts) = sumAmounts ts := by
  suffices h : ∀ m : List (String × ℚ),
      sumValues (ts.foldl
        (fun m t => mapSet m t.category (mapGetD m t.category + t.amount)) m)
        = sumValues m + (ts.map Tx.amount).sum by
    have := h []
    simpa [buildCategoryMap, sumValues, sumAmounts_eq] using this
  induction ts with
  | nil => intro m; simp
  | cons t rest ih =>
      intro m
      simp only [List.foldl_cons, List.map_cons, List.sum_cons]
      rw [ih, sumValues_mapSet]
      ring

/-- The breakdown's value column is exactly the grouped map's value column. -/
theorem shareValueSum_eq (ts : List Tx) :
    shareValueSum (categoryBreakdown ts) = sumValues (buildCategoryMap ts) := by
  unfold shareValueSum categoryBreakdown sumValues
  rw [List.map_map]
  rfl

/-- Summing a column scaled by the same divisor and factor scales the sum. -/
theorem sum_map_div_mul (m : List (String × ℚ)) (T : ℚ) :
    (m.map (fun p => p.2 / T * 100)).sum = (m.map Prod.snd).sum / T * 100 := by
  induction m with
  | nil => simp
  | cons p rest ih =>
      simp only [List.map_cons, List.sum_cons, ih]
      ring

/-- With a positive total, the exact percentage column sums to exactly 100. -/
theorem sharePercentageSum_total_pos (ts : List Tx) (h : 0 < sumAmounts ts) :
    sharePercentageSum (categoryBreakdown ts) = 100 := by
  unfold sharePercentageSum categoryBreakdown
  rw [List.map_map]
  have hfun : (CategoryShare.percentage ∘ fun p : String × ℚ =>
      CategoryShare.mk p.1 p.2
        (if sumAmounts ts > 0 then p.2 / sumAmounts ts * 100 else 0)) =
      fun p : String × ℚ => p.2 / sumAmounts ts * 100 := by
    funext p
    simp [Function.comp, if_pos h]
  rw [hfun, sum_map_div_mul]
  have hv : (List.map Prod.snd (buildCategoryMap ts)).sum = sumAmounts ts := by
    have := sumValues_buildCategoryMap ts
    simpa [sumValues] using this
  rw [hv, div_self (ne_of_gt h)]
  norm_num

/-- Rounding to one decimal moves a value by at most one twentieth. -/
theorem toFixed1_err (q : ℚ) : |toFixed1 q - q| ≤ 1 / 20 := by
  have h := abs_le.mp (abs_sub_round (q * 10))
  apply abs_le.mpr
  unfold toFixed1
  constructor <;> [linarith [h.1, h.2]; linarith [h.1, h.2]]

/-- The rounded percentage column differs from the exact one by at most one
twentieth per entry. -/
theorem fixedSum_err (cs : List CategoryShare) :
    |sharePercentageFixedSum cs - sharePercentageSum cs|
      ≤ (cs.length : ℚ) * (1 / 20) := by
  induction cs with
  | nil => simp [sharePercentageFixedSum, sharePercentageSum]
  | cons c rest ih =>
      simp only [sharePercentageFixedSum, sharePercentageSum, List.map_cons,
        List.sum_cons, List.length_cons] at *
      have h1 := toFixed1_err c.percentage
      have step : toFixed1 c.percentage + (rest.map (fun s => toFixed1 s.percentage)).sum
            - (c.percentage + (rest.map CategoryShare.percentage).sum)
          = (toFixed1 c.percentage - c.percentage)
            + ((rest.map (fun s => toFixed1 s.percentage)).sum
                - (rest.map CategoryShare.percentage).sum) := by ring
      rw [step]
      have habs := abs_add
        (toFixed1 c.percentage - c.percentage)
        ((rest.map (fun s => toFixed1 s.percentage)).sum
          - (rest.map CategoryShare.percentage).sum)
      have hlen : ((rest.length + 1 : ℕ) : ℚ) = (rest.length : ℚ) + 1 := by
        push_cast
        ring
      rw [hlen]
      calc |(toFixed1 c.percentage - c.percentage)
              + ((rest.map (fun s => toFixed1 s.percentage)).sum
                  - (rest.map CategoryShare.percentage).sum)|
          ≤ |toFixed1 c.percentage - c.percentage|
              + |(rest.map (fun s => toFixed1 s.percentage)).sum
                  - (rest.map CategoryShare.percentage).sum| := habs
        _ ≤ 1 / 20 + (rest.length : ℚ) * (1 / 20) := add_le_add h1 ih
        _ = ((rest.length : ℚ) + 1) * (1 / 20) := by ring

/-- Output of the `budgetStatus` operation: the percentage of the budget
used, the remaining budget, and the two display-threshold flags. -/
structure BudgetStatus where
  percentageUsed : ℚ
  remaining : ℚ
  isWarning : Bool
  isExceeded : Bool
deriving DecidableEq

/-- Embedding of Home.tsx line 156:
`budgetPercentage = budget > 0 ? (totalSpent / budget) * 100 : 0`. -/
def budgetPercentage (totalSpent budget : ℚ) : ℚ :=
  if budget > 0 then totalSpent / budget * 100 else 0

/-- Embedding of Home.tsx lines 156-157 and 187-194: the percentage and
remaining amount, plus the rendered states — the warning box appears when the
percentage is at least 90, and inside it the message switches to exceeded when
the percentage is at least 100 (otherwise it reads approaching the limit). -/
def budgetStatus (totalSpent budget : ℚ) : BudgetStatus :=
  { percentageUsed := budgetPercentage totalSpent budget
    remaining := budget - totalSpent
    isWarning := decide (90 ≤ budgetPercentage totalSpent budget)
      && !(decide (100 ≤ budgetPercentage totalSpent budget))
    isExceeded := decide (100 ≤ budgetPercentage totalSpent budget) }

/-- Embedding of Home.tsx line 59: `setBudget(data?.amount || 0)` — an
absent budget row is read as 0. -/
def fetchedBudget (fetched : Option ℚ) : ℚ := fetched.getD 0

/-- Gregorian leap-year rule, as implemented by JS Date and date-fns. -/
def isLeapYear (y : ℤ) : Bool :=
  (Int.emod y 4 == 0 && Int.emod y 100 != 0) || Int.emod y 400 == 0

/-- Year of an absolute month index (index = year * 12 + month of year). -/
def monthYear (m : ℤ) : ℤ := Int.ediv m 12

/-- Zero-based month of year of an absolute month index (0 = January). -/
def monthOfYear (m : ℤ) : ℕ := (Int.emod m 12).toNat

/-- Number of calendar days of the month with absolute index m. -/
def daysInMonth (m : ℤ) : ℕ :=
  if monthOfYear m = 1 then (if isLeapYear (monthYear m) then 29 else 28)
  else if monthOfYear m = 3 ∨ monthOfYear m = 5 ∨ monthOfYear m = 8 ∨ monthOfYear m = 10
    then 30
  else 31

/-- A calendar instant at the resolution of JS Date: an absolute month index,
a 1-based day of month, and the milliseconds elapsed within that day.  The
timezone is UTC throughout (dates are stored via `toISOString`). -/
structure DateTime where
  month : ℤ
  day : ℕ
  ms : ℕ
deriving DecidableEq

/-- An instant that actually exists on the calendar. -/
def DateTime.valid (d : DateTime) : Prop :=
  1 ≤ d.day ∧ d.day ≤ daysInMonth d.month ∧ d.ms < 86400000

instance (d : DateTime) : Decidable d.valid :=
  inferInstanceAs (Decidable (1 ≤ d.day ∧ d.day ≤ daysInMonth d.month ∧ d.ms < 86400000))

/-- Chronological comparison of instants (the order of ISO timestamps). -/
def dleb (a b : DateTime) : Bool :=
  decide (a.month < b.month) ||
    (a.month == b.month &&
      (decide (a.day < b.day) || (a.day == b.day && decide (a.ms ≤ b.ms))))

/-- date-fns `startOfMonth`: the first day of the month at 00:00:00.000. -/
def startOfMonth (m : ℤ) : DateTime := ⟨m, 1, 0⟩

/-- date-fns `endOfMonth`: the last day of the month at 23:59:59.999. -/
def endOfMonth (m : ℤ) : DateTime := ⟨m, daysInMonth m, 86399999⟩

/-- Home.tsx line 68 and Analytics.tsx line 33:
`new Date(year, month + 1, 0)` — the last day of the month at 00:00:00.000. -/
def lastDayMidnight (m : ℤ) : DateTime := ⟨m, daysInMonth m, 0⟩

/-- A stored transaction row as read by the trend and monthly queries: they
select the amount and filter on the date column. -/
structure Row where
  amount : ℚ
  date : DateTime
deriving DecidableEq

/-- Embedding of the supabase range query
`.gte("date", lo.toISOString()).lte("date", hi.toISOString())`:
the store keeps the rows whose date lies in the inclusive interval. -/
def listInRange (rows : List Row) (lo hi : DateTime) : List Row :=
  rows.filter (fun r => dleb lo r.date && dleb r.date hi)

/-- The summing reduce over fetched rows (Trends, part_003 lines 46-47). -/
def sumRowAmounts (rows : List Row) : ℚ :=
  rows.foldl (fun s r => s + r.amount) 0

/-- One entry of the 6-month trend series (MonthlyData in the source), with
the month kept as its absolute index rather than its formatted label. -/
structure MonthlyData where
  month : ℤ
  expenses : ℚ
  income : ℚ
  net : ℚ
deriving DecidableEq

/-- One iteration of the Trends loop (part_003 lines 28-54): the month's
expense and income rows are fetched with a start-of-month/end-of-month
inclusive range query and summed, and net is income minus expenses. -/
def monthEntry (exps incs : List Row) (m : ℤ) : MonthlyData :=
  { month := m
    expenses := sumRowAmounts (listInRange exps (startOfMonth m) (endOfMonth m))
    income := sumRowAmounts (listInRange incs (startOfMonth m) (endOfMonth m))
    net := sumRowAmounts (listInRange incs (startOfMonth m) (endOfMonth m))
      - sumRowAmounts (listInRange exps (startOfMonth m) (endOfMonth m)) }

/-- Embedding of fetchTrends (part_003 lines 21-58): the loop runs i = 5
down to 0 and pushes the summary of the month i months before the reference
month, so the j-th pushed entry covers month refMonth - (5 - j). -/
def fetchTrends (exps incs : List Row) (refMonth : ℤ) : List MonthlyData :=
  (List.range 6).map (fun j => monthEntry exps incs (refMonth - (5 - (j : ℤ))))

/-- Specification-side month summary, following the words of the spec: the
entry for a month sums exactly the transactions whose date falls in that
calendar month, and net is income minus expenses. -/
def monthSummary (exps incs : List Row) (m : ℤ) : MonthlyData :=
  { month := m
    expenses := sumRowAmounts (exps.filter (fun r => r.date.month == m))
    income := sumRowAmounts (incs.filter (fun r => r.date.month == m))
    net := sumRowAmounts (incs.filter (fun r => r.date.month == m))
      - sumRowAmounts (exps.filter (fun r => r.date.month == m)) }

/-- Home.tsx fetchExpenses (lines 62-86): the current month's expenses are
fetched with the range first day .. `new Date(y, m + 1, 0)` and summed. -/
def homeMonthTotal (exps : List Row) (m : ℤ) : ℚ :=
  sumRowAmounts (listInRange exps (startOfMonth m) (lastDayMidnight m))

/-- Unfolding of the chronological comparison into arithmetic. -/
theorem dleb_iff (a b : DateTime) :
    dleb a b = true ↔
      (a.month < b.month ∨ (a.month = b.month ∧
        (a.day < b.day ∨ (a.day = b.day ∧ a.ms ≤ b.ms)))) := by
  simp [dleb, Bool.or_eq_true, Bool.and_eq_true, decide_eq_true_iff, beq_iff_eq]

/-- A valid instant lies between start-of-month and end-of-month exactly when
it belongs to that calendar month. -/
theorem inMonthRange_iff (m : ℤ) (d : DateTime) (hd : d.valid) :
    (dleb (startOfMonth m) d && dleb d (endOfMonth m)) = true ↔ d.month = m := by
  obtain ⟨mo, da, msv⟩ := d
  obtain ⟨h1, h2, h3⟩ := hd
  simp only [Bool.and_eq_true, dleb_iff, startOfMonth, endOfMonth] at *
  constructor
  · rintro ⟨hlo, hhi⟩
    omega
  · rintro rfl
    refine ⟨?_, ?_⟩ <;> omega

/-- On rows with valid dates, the start/end-of-month range query is the
calendar-month filter. -/
theorem listInRange_month (rows : List Row) (m : ℤ)
    (hv : ∀ r ∈ rows, r.date.valid) :
    listInRange rows (startOfMonth m) (endOfMonth m)
      = rows.filter (fun r => r.date.month == m) := by
  unfold listInRange
  apply List.filter_congr
  intro r hr
  have hiff := inMonthRange_iff m r.date (hv r hr)
  cases hb : (r.date.month == m) with
  | true =>
      exact hiff.mpr (beq_iff_eq.mp hb)
  | false =>
      rw [Bool.eq_false_iff]
      intro hc
      exact (beq_eq_false_iff_ne.mp hb) (hiff.mp hc)

/-- On valid rows, each trend-loop iteration computes the spec's calendar
month summary. -/
theorem monthEntry_eq (exps incs : List Row) (m : ℤ)
    (hve : ∀ r ∈ exps, r.date.valid) (hvi : ∀ r ∈ incs, r.date.valid) :
    monthEntry exps incs m = monthSummary exps incs m := by
  unfold monthEntry monthSummary
  rw [listInRange_month exps m hve, listInRange_month incs m hvi]

/-- The kind of a stored transaction. -/
inductive TxKind
  | expense
  | income
deriving DecidableEq

/-- Embedding of the store DDL (part_005 and part_004): the expenses table
carries `CHECK (amount > 0)`, while the incomes table declares
`amount NUMERIC NOT NULL` with no check on its sign, so the store accepts
any income amount. -/
def storeAccepts (k : TxKind) (amount : ℚ) : Bool :=
  match k with
  | .expense => decide (0 < amount)
  | .income => true

/-- Embedding of Analytics.tsx line 61: the average is computed from the
expense list only: `expenses.length > 0 ? total / expenses.length : 0`. -/
def avgTransaction (expenses : List Tx) : ℚ :=
  if expenses.length > 0 then sumAmounts expenses / (expenses.length : ℚ) else 0

/-- Embedding of Analytics.tsx line 60: the displayed transaction count is
`expenses.length + (incomes?.length || 0)`. -/
def transactionCount (expenses incomes : List Tx) : ℕ :=
  expenses.length + incomes.length

/-- The worked example of the spec: Food 100, Food 300, Transport 200. -/
def exList : List Tx :=
  [⟨100, "Food"⟩, ⟨300, "Food"⟩, ⟨200, "Transport"⟩]

/-- A single income transaction used as concrete input. -/
def soloIncome : Tx := ⟨5, "Salary"⟩

/-- An expense row dated January 31 2026 at 12:00:00.000 UTC (absolute month
index 24312 = 2026 * 12). -/
def lastDayNoonRow : Row := ⟨50, ⟨24312, 31, 43200000⟩⟩

/-- An expense row dated January 15 2026 at 00:00:00.000 UTC. -/
def janMidRow : Row := ⟨50, ⟨24312, 15, 0⟩⟩

/-- Concrete evaluation of the category breakdown on the spec's worked
example: Food 400 at two thirds, Transport 200 at one third. -/
theorem exListBreakdown : categoryBreakdown exList =
    [⟨"Food", 400, 200 / 3⟩, ⟨"Transport", 200, 100 / 3⟩] := by
  have h : buildCategoryMap exList = [("Food", 400), ("Transport", 200)] := by
    simp [buildCategoryMap, exList, mapSet, mapGetD, List.find?]
    norm_num
  have hs : sumAmounts exList = 600 := by
    simp [sumAmounts, exList]
    norm_num
  simp [categoryBreakdown, h, hs]
  norm_num

/-- Concrete evaluation of the worked example's total. -/
theorem exListTotal : (summarize exList).total = 600 := by
  show sumAmounts exList = 600
  simp [sumAmounts, exList]
  norm_num

/-- Claim C1: for every transaction list, categoryBreakdown assigns each
group a percentage equal to 100 times the group sum divided by the total
over all groups, and when that total is 0 every percentage is 0 — the
0-total case is an explicit branch, not a division fault. -/
theorem c1_breakdown_percentage (ts : List Tx) (s : CategoryShare)
    (h : s ∈ categoryBreakdown ts) :
    (0 < shareValueSum (categoryBreakdown ts) →
      s.percentage = 100 * s.value / shareValueSum (categoryBreakdown ts)) ∧
    (shareValueSum (categoryBreakdown ts) = 0 → s.percentage = 0) := by
  have hT : shareValueSum (categoryBreakdown ts) = sumAmounts ts := by
    rw [shareValueSum_eq, sumValues_buildCategoryMap]
  rw [hT]
  unfold categoryBreakdown at h
  obtain ⟨p, hp, rfl⟩ := List.mem_map.mp h
  constructor
  · intro hpos
    simp only [gt_iff_lt, if_pos hpos]
    ring
  · intro h0
    simp [h0]

/-- Witness for C1 at the spec's worked example. -/
theorem c1_breakdown_percentage_witness :
    ((⟨"Food", 400, 200 / 3⟩ : CategoryShare) ∈ categoryBreakdown exList) ∧
    0 < shareValueSum (categoryBreakdown exList) ∧
    (200 / 3 : ℚ) = 100 * 400 / shareValueSum (categoryBreakdown exList) := by
  have hmem : (⟨"Food", 400, 200 / 3⟩ : CategoryShare) ∈ categoryBreakdown exList := by
    rw [exListBreakdown]
    exact List.mem_cons_self _ _
  have hpos : 0 < shareValueSum (categoryBreakdown exList) := by
    rw [exListBreakdown]
    simp [shareValueSum]
    norm_num
  exact ⟨hmem, hpos, (c1_breakdown_percentage exList _ hmem).1 hpos⟩

/-- Claim C2: budgetStatus yields percentageUsed 0 whenever the budget is
non-positive (or absent, read as 0) and 100 times spent over budget
otherwise, and remaining is budget minus spent, which can go negative. -/
theorem c2_budget_status (totalSpent budget : ℚ) :
    (budget ≤ 0 → (budgetStatus totalSpent budget).percentageUsed = 0) ∧
    (0 < budget →
      (budgetStatus totalSpent budget).percentageUsed = 100 * totalSpent / budget) ∧
    (budgetStatus totalSpent budget).remaining = budget - totalSpent ∧
    fetchedBudget none = 0 ∧
    (budgetStatus totalSpent (fetchedBudget none)).percentageUsed = 0 ∧
    (budgetStatus 1500 1000).remaining < 0 := by
  refine ⟨?_, ?_, rfl, rfl, ?_, ?_⟩
  · intro hb
    simp [budgetStatus, budgetPercentage, not_lt.mpr hb]
  · intro hb
    have hv : (budgetStatus totalSpent budget).percentageUsed
        = totalSpent / budget * 100 := by
      simp [budgetStatus, budgetPercentage, hb]
    rw [hv]
    ring
  · simp [budgetStatus, budgetPercentage, fetchedBudget]
  · show (1000 : ℚ) - 1500 < 0
    norm_num

/-- Witness for C2 at spent 950 against budget 1000. -/
theorem c2_budget_status_witness :
    0 < (1000 : ℚ) ∧
    (budgetStatus 950 1000).percentageUsed = 100 * 950 / 1000 :=
  ⟨by norm_num, (c2_budget_status 950 1000).2.1 (by norm_num)⟩

/-- Claim C3: the warning state holds exactly when the percentage is at
least 90 and below 100 and the exceeded state exactly when it is at least
100, with the spec's two worked examples evaluated exactly. -/
theorem c3_thresholds :
    (∀ totalSpent budget : ℚ,
      ((budgetStatus totalSpent budget).isWarning = true ↔
        (90 ≤ (budgetStatus totalSpent budget).percentageUsed ∧
          (budgetStatus totalSpent budget).percentageUsed < 100)) ∧
      ((budgetStatus totalSpent budget).isExceeded = true ↔
        100 ≤ (budgetStatus totalSpent budget).percentageUsed)) ∧
    budgetStatus 950 1000 = ⟨95, 50, true, false⟩ ∧
    budgetStatus 1200 1000 = ⟨120, -200, false, true⟩ := by
  refine ⟨fun s b => ⟨?_, ?_⟩, ?_, ?_⟩
  · simp [budgetStatus, Bool.and_eq_true, decide_eq_true_iff, not_le]
  · simp [budgetStatus, decide_eq_true_iff]
  · simp [budgetStatus, budgetPercentage, BudgetStatus.mk.injEq,
      decide_eq_true_eq, decide_eq_false_iff_not]
    norm_num
  · simp [budgetStatus, budgetPercentage, BudgetStatus.mk.injEq,
      decide_eq_true_eq, decide_eq_false_iff_not]
    norm_num

/-- Claim C4: summarize returns the sum of the amounts, the length, and the
guarded average, with the empty list mapping to all zeroes. -/
theorem c4_summarize (ts : List Tx) :
    (summarize ts).total = (ts.map Tx.amount).sum ∧
    (summarize ts).count = ts.length ∧
    (0 < ts.length →
      (summarize ts).average = (summarize ts).total / (ts.length : ℚ)) ∧
    (ts.length = 0 → (summarize ts).average = 0) ∧
    summarize [] = ⟨0, 0, 0⟩ := by
  refine ⟨sumAmounts_eq ts, rfl, ?_, ?_, rfl⟩
  · intro h
    simp [summarize, h]
  · intro h
    simp [summarize, h]

/-- Witness for C4 on the spec's worked example. -/
theorem c4_summarize_witness :
    0 < exList.length ∧
    (summarize exList).average = (summarize exList).total / (exList.length : ℚ) :=
  ⟨by decide, (c4_summarize exList).2.2.1 (by decide)⟩

/-- Claim C5: for every non-empty transaction list the per-category amounts
of the breakdown sum exactly to the summarize total. -/
theorem c5_value_conservation (ts : List Tx) (h : ts ≠ []) :
    shareValueSum (categoryBreakdown ts) = (summarize ts).total := by
  rw [shareValueSum_eq, sumValues_buildCategoryMap]
  rfl

/-- Witness for C5 on the spec's worked example. -/
theorem c5_value_conservation_witness :
    exList ≠ [] ∧
    shareValueSum (categoryBreakdown exList) = (summarize exList).total :=
  ⟨by decide, c5_value_conservation exList (by decide)⟩

/-- Claim C9: with a positive total the exact percentages sum to exactly
100 (so the displayed one-decimal roundings sum to 100 within one twentieth
per category), and with total 0 every percentage is 0. -/
theorem c9_percentage_sum (ts : List Tx) :
    (0 < (summarize ts).total →
      sharePercentageSum (categoryBreakdown ts) = 100 ∧
      |sharePercentageFixedSum (categoryBreakdown ts) - 100|
        ≤ ((categoryBreakdown ts).length : ℚ) * (1 / 20)) ∧
    ((summarize ts).total = 0 → ∀ s ∈ categoryBreakdown ts, s.percentage = 0) := by
  constructor
  · intro hpos
    have hp : 0 < sumAmounts ts := hpos
    have h100 := sharePercentageSum_total_pos ts hp
    refine ⟨h100, ?_⟩
    have hb := fixedSum_err (categoryBreakdown ts)
    rw [h100] at hb
    exact hb
  · intro h0 s hs
    unfold categoryBreakdown at hs
    obtain ⟨p, hp, rfl⟩ := List.mem_map.mp hs
    have h0q : sumAmounts ts = 0 := h0
    simp [h0q]

/-- Witness for C9 on the spec's worked example. -/
theorem c9_percentage_sum_witness :
    0 < (summarize exList).total ∧
    sharePercentageSum (categoryBreakdown exList) = 100 := by
  have hpos : 0 < (summarize exList).total := by
    rw [exListTotal]
    norm_num
  exact ⟨hpos, ((c9_percentage_sum exList).1 hpos).1⟩

/-- Claim C6: the trend series is exactly the six calendar-month summaries
ending at the reference month, oldest first; on valid rows each entry
aggregates precisely the transactions of its own calendar month and its net
is income minus expenses. -/
theorem c6_trailing (exps incs : List Row) (refMonth : ℤ)
    (hve : ∀ r ∈ exps, r.date.valid) (hvi : ∀ r ∈ incs, r.date.valid) :
    (fetchTrends exps incs refMonth).length = 6 ∧
    fetchTrends exps incs refMonth =
      [monthSummary exps incs (refMonth - 5), monthSummary exps incs (refMonth - 4),
        monthSummary exps incs (refMonth - 3), monthSummary exps incs (refMonth - 2),
        monthSummary exps incs (refMonth - 1), monthSummary exps incs refMonth] := by
  have key : ∀ m : ℤ, monthEntry exps incs m = monthSummary exps incs m :=
    fun m => monthEntry_eq exps incs m hve hvi
  constructor
  · rfl
  · show (List.range 6).map
        (fun j => monthEntry exps incs (refMonth - (5 - (j : ℤ)))) = _
    have h6 : List.range 6 = [0, 1, 2, 3, 4, 5] := rfl
    rw [h6]
    simp only [List.map_cons, List.map_nil, key]
    norm_num

/-- Witness for C6: a single January 2026 expense row. -/
theorem c6_trailing_witness :
    (∀ r ∈ [janMidRow], r.date.valid) ∧
    (∀ r ∈ ([] : List Row), r.date.valid) ∧
    fetchTrends [janMidRow] [] 24312 =
      [monthSummary [janMidRow] [] (24312 - 5), monthSummary [janMidRow] [] (24312 - 4),
        monthSummary [janMidRow] [] (24312 - 3), monthSummary [janMidRow] [] (24312 - 2),
        monthSummary [janMidRow] [] (24312 - 1), monthSummary [janMidRow] [] 24312] := by
  have h1 : ∀ r ∈ [janMidRow], r.date.valid := by decide
  have h2 : ∀ r ∈ ([] : List Row), r.date.valid := by decide
  exact ⟨h1, h2, (c6_trailing [janMidRow] [] 24312 h1 h2).2⟩

/-- Claim C7 counterexample: the incomes table accepts a negative amount —
its DDL has no positivity check, so the store does not enforce amount
positivity for the income kind. -/
theorem c7_income_unchecked :
    storeAccepts TxKind.income (-5) = true ∧ ¬ (0 < (-5 : ℚ)) := by
  constructor
  · rfl
  · norm_num

/-- Claim C7 (amended): the store's positivity check exists for expenses
only — an expense is accepted exactly when its amount is positive, while an
income of any amount is accepted. -/
theorem c7_store_checks (a : ℚ) :
    (storeAccepts TxKind.expense a = true ↔ 0 < a) ∧
    storeAccepts TxKind.income a = true := by
  constructor
  · simp [storeAccepts]
  · rfl

/-- Witness for the amended C7 at amount 7. -/
theorem c7_store_checks_witness :
    0 < (7 : ℚ) ∧ storeAccepts TxKind.expense 7 = true :=
  ⟨by norm_num, (c7_store_checks 7).1.mpr (by norm_num)⟩

/-- Claim C8, behavior at the failing input: a valid expense dated noon of
the last calendar day of January 2026 is excluded from the Home/Analytics
month total (whose upper bound is the last day at midnight) although the
trend query bounded by endOfMonth includes it. -/
theorem c8_last_day_excluded :
    lastDayNoonRow.date.valid ∧
    lastDayNoonRow.date.month = 24312 ∧
    homeMonthTotal [lastDayNoonRow] 24312 = 0 ∧
    sumRowAmounts (listInRange [lastDayNoonRow]
      (startOfMonth 24312) (endOfMonth 24312)) = 50 := by
  refine ⟨by decide, rfl, ?_, ?_⟩
  · have h : listInRange [lastDayNoonRow]
        (startOfMonth 24312) (lastDayMidnight 24312) = [] := by decide
    simp [homeMonthTotal, h, sumRowAmounts]
  · have h : listInRange [lastDayNoonRow]
        (startOfMonth 24312) (endOfMonth 24312) = [lastDayNoonRow] := by decide
    rw [h]
    simp [sumRowAmounts, lastDayNoonRow]

/-- Claim C10 counterexample: with no expenses and one income, the average
(0) times the displayed count (1) equals the expense total (0), so the
products do not always differ when an income is present. -/
theorem c10_avg_count_counterexample :
    1 ≤ ([soloIncome] : List Tx).length ∧
    avgTransaction [] * ((transactionCount [] [soloIncome] : ℕ) : ℚ)
      = (summarize ([] : List Tx)).total := by
  constructor
  · decide
  · simp [avgTransaction, transactionCount, summarize, sumAmounts]

/-- Claim C10 (amended): the average is computed over expenses only while
the displayed count also counts incomes, and whenever the expense total is
positive and at least one income is present the average times the count
differs from the expense total. -/
theorem c10_avg_count (expenses incomes : List Tx) :
    (expenses = [] → avgTransaction expenses = 0) ∧
    (expenses ≠ [] →
      avgTransaction expenses = (summarize expenses).total / (expenses.length : ℚ)) ∧
    transactionCount expenses incomes = expenses.length + incomes.length ∧
    (0 < (summarize expenses).total → incomes ≠ [] →
      avgTransaction expenses * ((transactionCount expenses incomes : ℕ) : ℚ)
        ≠ (summarize expenses).total) := by
  refine ⟨?_, ?_, rfl, ?_⟩
  · intro h
    subst h
    rfl
  · intro h
    have hl : 0 < expenses.length := List.length_pos.mpr h
    simp [avgTransaction, summarize, hl]
  · intro hT hinc
    have hne : expenses ≠ [] := by
      intro hemp
      subst hemp
      simp [summarize, sumAmounts] at hT
    have hl : 0 < expenses.length := List.length_pos.mpr hne
    have hm : 0 < incomes.length := List.length_pos.mpr hinc
    have hT2 : 0 < sumAmounts expenses := hT
    have hln : (0 : ℚ) < (expenses.length : ℚ) := by exact_mod_cast hl
    have hlm : (0 : ℚ) < (incomes.length : ℚ) := by exact_mod_cast hm
    have key : avgTransaction expenses * ((transactionCount expenses incomes : ℕ) : ℚ)
        = sumAmounts expenses
          + sumAmounts expenses * (incomes.length : ℚ) / (expenses.length : ℚ) := by
      simp only [avgTransaction, transactionCount, if_pos hl]
      push_cast
      field_simp
      ring
    have hgt : (summarize expenses).total
        < avgTransaction expenses * ((transactionCount expenses incomes : ℕ) : ℚ) := by
      rw [key]
      have hq : 0 < sumAmounts expenses * (incomes.length : ℚ) / (expenses.length : ℚ) :=
        div_pos (mul_pos hT2 hlm) hln
      show sumAmounts expenses < _
      linarith
    exact ne_of_gt hgt

/-- Witness for the amended C10: the worked example's expenses plus one
income make the product 800 differ from the total 600. -/
theorem c10_avg_count_witness :
    0 < (summarize exList).total ∧ ([soloIncome] : List Tx) ≠ [] ∧
    avgTransaction exList * ((transactionCount exList [soloIncome] : ℕ) : ℚ)
      ≠ (summarize exList).total := by
  have hpos : 0 < (summarize exList).total := by
    rw [exListTotal]
    norm_num
  have hne : ([soloIncome] : List Tx) ≠ [] := by decide
  exact ⟨hpos, hne, (c10_avg_count exList [soloIncome]).2.2.2 hpos hne⟩

end ExpenseTracker
